/-
Verification of the flux release orchestration engine and registry access
layer against its specification.

The Go source is shallowly embedded: strings that get parsed are `List Char`,
Go maps are association lists, machine time is `Int` nanoseconds, closures
stored in data records are Lean functions, and fallible operations return
`Except`/`Option`. External collaborators (git checkout, filesystem, the
platform connector) appear as explicit function parameters.
-/
import Mathlib

set_option linter.unusedVariables false

namespace Flux

/-! ## Generic association-list maps (Go `map` values) -/

/-- Lookup in an association list; `none` mirrors a missing Go map key. -/
def mapLookup {α β : Type} [DecidableEq α] : List (α × β) → α → Option β
  | [], _ => none
  | (k, v) :: rest, key => if k = key then some v else mapLookup rest key

/-- Insert or overwrite a key, mirroring Go `m[k] = v`. -/
def mapSet {α β : Type} [DecidableEq α] : List (α × β) → α → β → List (α × β)
  | [], key, v => [(key, v)]
  | (k, w) :: rest, key, v =>
    if k = key then (k, v) :: rest else (k, w) :: mapSet rest key v

/-! ## Splitting (Go `strings.SplitN` with a one-character separator) -/

/-- Split a character list at the first occurrence of `sep`, if any. -/
def splitOnFirst (sep : Char) : List Char → Option (List Char × List Char)
  | [] => none
  | c :: rest =>
    if c = sep then some ([], rest)
    else
      match splitOnFirst sep rest with
      | none => none
      | some (a, b) => some (c :: a, b)

/-- Go `strings.SplitN(s, sep, n)` for a single-character separator and
`n > 0`: at most `n` tokens, the last token keeps the remainder. -/
def goSplitN (sep : Char) : Nat → List Char → List (List Char)
  | 0, _ => []
  | 1, s => [s]
  | n + 2, s =>
    match splitOnFirst sep s with
    | none => [s]
    | some (a, b) => a :: goSplitN sep (n + 1) b

/-! ## ImageID (src/registry/images/image.go) -/

/-- Go `type ImageID string`; all strings parse. -/
abbrev ImageID : Type := List Char

/-- Go `ParseImageID`: the identity, "technically all strings are valid". -/
def parseImageID (s : List Char) : ImageID := s

/-- Go `MakeImageID(registry, name, tag)`. -/
def makeImageID (registry name tag : List Char) : ImageID :=
  let result := name
  let result := if registry ≠ [] then registry ++ '/' :: name else result
  if tag ≠ [] then result ++ ':' :: tag else result

/-- Go `ImageID.Components()`: split on `/` into at most three tokens; with
three tokens the first is the registry and the rest are rejoined; then split
the remainder on the first `:` for the tag. -/
def components (id : ImageID) : List Char × List Char × List Char :=
  let s : List Char := id
  match goSplitN '/' 3 s with
  | [t0, t1, t2] =>
    let s := t1 ++ '/' :: t2
    (match goSplitN ':' 2 s with
     | [n0, t] => (t0, n0, t)
     | [n0] => (t0, n0, [])
     | _ => (t0, s, []))
  | _ =>
    match goSplitN ':' 2 s with
    | [n0, t] => ([], n0, t)
    | [n0] => ([], n0, [])
    | _ => ([], s, [])

/-- Go `ImageID.Repository()`: everything but the tag. -/
def repository (id : ImageID) : List Char :=
  match components id with
  | (registry, name, _) =>
    if registry ≠ [] ∧ name ≠ [] then registry ++ '/' :: name
    else if name ≠ [] then name
    else []

/-! ## Case-insensitive comparison (Go `strings.EqualFold`, ASCII range) -/

/-- ASCII lower-casing of a character code; the tags compared by the image
map policy are ASCII, so Unicode simple folding is modelled on that range. -/
def asciiLowerCode (c : Char) : Nat :=
  if 65 ≤ c.toNat ∧ c.toNat ≤ 90 then c.toNat + 32 else c.toNat

/-- Character lists equal up to ASCII case. -/
def eqFold : List Char → List Char → Bool
  | [], [] => true
  | a :: as, b :: bs => asciiLowerCode a = asciiLowerCode b && eqFold as bs
  | _, _ => false

/-! ## ImageDescription and ImageMap (src/unnamed/part_002, `instance` package) -/

/-- Modelled from the spec: `flux.ImageDescription` is declared outside src/;
per the data model it is an ID with an optional creation timestamp
(`Int` nanoseconds stands in for `*time.Time`). -/
structure ImageDescription where
  id : ImageID
  createdAt : Option Int
deriving DecidableEq

/-- Go `type ImageMap map[string][]flux.ImageDescription`, as an association
list. -/
abbrev ImageMap : Type := List (List Char × List ImageDescription)

/-- The tag component of an image reference. -/
def tagOf (id : ImageID) : List Char := (components id).2.2

/-- The loop body of `ImageMap.LatestImage`: first entry whose tag is not
case-insensitively "latest". -/
def latestImageList : List ImageDescription → Option ImageDescription
  | [] => none
  | image :: rest =>
    if eqFold (tagOf image.id) "latest".toList then latestImageList rest
    else some image

/-- Go `ImageMap.LatestImage(repo)`; a missing key reads as the empty list,
as a Go map access does. -/
def latestImage (m : ImageMap) (repo : List Char) : Option ImageDescription :=
  latestImageList ((mapLookup m repo).getD [])

/-! ## Host rate-limited round tripper (src/registry/rate_limit.go,
backlog-aware variant) -/

/-- Go `type limit struct` of rate_limit.go. Times and durations are `Int`
nanoseconds; the zero `time.Time` is 0. -/
structure Limit where
  maxRequestsPerSecond : Int
  nextRequestAt : Int
deriving DecidableEq

/-- State of `hostRateLimitedRoundTripper`: the configured maximum backlog
and the per-host limit table. -/
structure RLState where
  maxBacklog : Int
  limits : List (String × Limit)
deriving DecidableEq

/-- Outcome of one `RoundTrip` call: either the named overflow error
`ErrTooManyPendingRequests` (returned before any sleep), or permission to
proceed after sleeping `sleep` nanoseconds. -/
inductive RLResult where
  | tooManyPendingRequests : RLResult
  | allow : (sleep : Int) → RLResult
deriving DecidableEq

/-- One second in nanoseconds (Go `time.Second`). -/
def oneSecond : Int := 1000000000

/-- Go `hostRateLimitedRoundTripper.RoundTrip` (backlog-aware variant),
restricted to its throttling decision: the forwarded HTTP call itself is
outside the model. `t` is the value of `now()`. -/
def rlRoundTrip (c : RLState) (host : String) (t : Int) : RLResult × RLState :=
  let limit := (mapLookup c.limits host).getD ⟨0, 0⟩
  if 0 < limit.maxRequestsPerSecond then
    let limit :=
      if limit.nextRequestAt < t then { limit with nextRequestAt := t } else limit
    let sleep := limit.nextRequestAt - t
    let newNextRequest := limit.nextRequestAt + oneSecond / limit.maxRequestsPerSecond
    if 0 < c.maxBacklog ∧ t + c.maxBacklog < newNextRequest then
      (RLResult.tooManyPendingRequests, c)
    else
      (RLResult.allow sleep,
       { c with limits := mapSet c.limits host { limit with nextRequestAt := newNextRequest } })
  else
    (RLResult.allow 0, c)

/-- A request presented to the round tripper: target host and arrival time. -/
structure RLRequest where
  host : String
  time : Int
deriving DecidableEq

/-- Sequential semantics of a series of `RoundTrip` calls: the trace of
per-request outcomes together with the final limit table. -/
def runRL (c : RLState) : List RLRequest → List (RLRequest × RLResult) × RLState
  | [] => ([], c)
  | req :: rest =>
    let (res, c') := rlRoundTrip c req.host req.time
    let (trace, cf) := runRL c' rest
    ((req, res) :: trace, cf)

/-- The granted time slots (arrival time plus imposed sleep) of the permitted
requests to host `h`, in trace order. -/
def allowedSlots (h : String) (trace : List (RLRequest × RLResult)) : List Int :=
  trace.filterMap fun p =>
    if p.1.host = h then
      match p.2 with
      | RLResult.allow s => some (p.1.time + s)
      | RLResult.tooManyPendingRequests => none
    else none

/-! ## Errors, service identifiers and platform types -/

/-- Go `error` values as they occur in the release engine: either a plain
message, or `platform.ApplyError`, a per-service error map that the release
action recognises by a type switch. `platform.ApplyError` itself is declared
outside src/ and is modelled from the spec as a service-to-error map. -/
inductive GoErr where
  | msg : String → GoErr
  | applyError : List (List Char × GoErr) → GoErr

/-- Go `err.Error()`. Modelled from the spec for `platform.ApplyError`,
whose `Error` method is outside src/; claims do not depend on its text. -/
def GoErr.error : GoErr → String
  | GoErr.msg s => s
  | GoErr.applyError _ => "apply error"

/-- Modelled from the spec: `flux.ServiceID` is declared outside src/; it is
a "namespace/service" string. -/
abbrev ServiceID : Type := List Char

/-- Modelled from the spec: `ServiceID.Components()` splits the identifier
into namespace and service name at the first slash. -/
def serviceComponents (s : ServiceID) : List Char × List Char :=
  match splitOnFirst '/' s with
  | some (ns, name) => (ns, name)
  | none => ([], s)

/-- Go `const FluxServiceName = "fluxsvc"` (src/unnamed/part_001). -/
def FluxServiceName : String := "fluxsvc"

/-- Go `const FluxDaemonName = "fluxd"` (src/unnamed/part_001). -/
def FluxDaemonName : String := "fluxd"

/-- Modelled from the spec: `platform.Container` (outside src/) carries the
container name and its running image reference. -/
structure Container where
  name : String
  image : List Char
deriving DecidableEq

/-- Modelled from the spec: `platform.Service` (outside src/) as consumed by
the update calculator: its ID and its container list, which may be
unavailable (`ContainersOrError`). -/
structure Service where
  id : ServiceID
  containersOrError : Except GoErr (List Container)

/-- Modelled from the spec: `platform.ServiceDefinition` (outside src/): a
service ID paired with its new manifest definition bytes. -/
structure ServiceDefinition where
  serviceID : ServiceID
  newDefinition : String
deriving DecidableEq

/-- An audit event emitted through `Instance.LogEvent(namespace, service,
message)`. -/
abbrev Event : Type := List Char × List Char × String

/-- Modelled from the spec: the `ReleaseContext` type is declared outside
src/; it bundles the working directory of the cloned checkout, the
per-service manifest map `PodControllers`, and (standing in for the
instance's event sink) the audit events recorded so far. -/
structure ReleaseContext where
  workingDir : String
  podControllers : List (ServiceID × String)
  events : List Event

/-- Append an audit event, mirroring `Instance.LogEvent`. -/
def logEvent (rc : ReleaseContext) (ns name : List Char) (m : String) : ReleaseContext :=
  { rc with events := rc.events ++ [(ns, name, m)] }

/-- The type of an action's executable step: Go
`func(*ReleaseContext) (string, error)`, with the pointer mutation made
explicit. -/
abbrev DoFn : Type := ReleaseContext → ReleaseContext × Except GoErr String

/-- Go `type ReleaseAction struct` (src/unnamed/part_001): name, description,
optional executable step, and the recorded result. -/
structure ReleaseAction where
  name : String
  description : String
  do_ : Option DoFn
  result : String

/-- Modelled from the spec: `flux.ReleaseKindPlan` ("plan only" mode). -/
def ReleaseKindPlan : String := "plan"

/-- Modelled from the spec: `flux.ReleaseKindExecute` ("execute" mode). -/
def ReleaseKindExecute : String := "execute"

/-! ## Release action executor (src/unnamed/part_001, `Releaser.execute`) -/

/-- Go `Releaser.execute`: walk the actions in order, reporting each
description to the progress sink; skip actions with no step; in "execute"
mode run the step, record its result (or `"Failed: …"` and abort) into the
action. Returns the updated actions, final context, progress lines, and the
surfaced error, making the in-place mutations of the Go code explicit. -/
def execute (kind : String) (rc : ReleaseContext) :
    List ReleaseAction → List ReleaseAction × ReleaseContext × List String × Option GoErr
  | [] => ([], rc, [], none)
  | action :: rest =>
    match action.do_ with
    | none =>
      let (as, rc', log, err) := execute kind rc rest
      (action :: as, rc', action.description :: log, err)
    | some f =>
      if kind = ReleaseKindExecute then
        match f rc with
        | (rc1, Except.error e) =>
          ({ action with result := "Failed: " ++ e.error } :: rest, rc1,
           [action.description, e.error], some e)
        | (rc1, Except.ok result) =>
          let (as, rc', log, err) := execute kind rc1 rest
          ({ action with result := result } :: as, rc',
           action.description :: ((if result ≠ "" then [result] else []) ++ log), err)
      else
        let (as, rc', log, err) := execute kind rc rest
        (action :: as, rc', action.description :: log, err)

/-! ## Update calculator (src/unnamed/part_001, `CalculateUpdates`) -/

/-- Go `type ContainerUpdate struct`. -/
structure ContainerUpdate where
  container : String
  current : ImageID
  target : ImageID
deriving DecidableEq

/-- The update map under construction, with Go map insertion order made
explicit, together with the diagnostics issued through `printf` so far. -/
abbrev UpdateAcc : Type := List (ServiceID × List ContainerUpdate) × List String

/-- Append an update for a service, mirroring
`updateMap[service.ID] = append(updateMap[service.ID], u)`. -/
def mapAppend (m : List (ServiceID × List ContainerUpdate)) (k : ServiceID)
    (u : ContainerUpdate) : List (ServiceID × List ContainerUpdate) :=
  match m with
  | [] => [(k, [u])]
  | (k', us) :: rest =>
    if k' = k then (k', us ++ [u]) :: rest else (k', us) :: mapAppend rest k u

/-- Diagnostic for a service whose containers are unavailable. -/
def noContainersMsg (sid : ServiceID) (e : GoErr) : String :=
  "service " ++ String.mk sid ++ " does not have images associated: " ++ e.error

/-- Diagnostic for a container already running the latest image. -/
def alreadyLatestMsg (sid : ServiceID) (img : ImageID) : String :=
  "Service " ++ String.mk sid ++ " image " ++ String.mk img ++
    " is already the latest one; skipping."

/-- The inner (per-container) loop body of `CalculateUpdates`. -/
def stepContainer (images : ImageMap) (sid : ServiceID) (acc : UpdateAcc)
    (container : Container) : UpdateAcc :=
  let currentImageID := parseImageID container.image
  match latestImage images (repository currentImageID) with
  | none => acc
  | some latest =>
    if currentImageID = latest.id then
      (acc.1, acc.2 ++ [alreadyLatestMsg sid currentImageID])
    else
      (mapAppend acc.1 sid ⟨container.name, currentImageID, latest.id⟩, acc.2)

/-- The outer (per-service) loop body of `CalculateUpdates`. -/
def stepService (images : ImageMap) (acc : UpdateAcc) (service : Service) : UpdateAcc :=
  match service.containersOrError with
  | Except.error e => (acc.1, acc.2 ++ [noContainersMsg service.id e])
  | Except.ok containers => containers.foldl (stepContainer images service.id) acc

/-- Fold `CalculateUpdates` over the service list from a given accumulator. -/
def calcAux (images : ImageMap) (services : List Service) (acc : UpdateAcc) : UpdateAcc :=
  services.foldl (stepService images) acc

/-- Go `CalculateUpdates(services, images, printf)`: the computed update map
plus the diagnostics issued through `printf`. -/
def CalculateUpdates (services : List Service) (images : ImageMap) : UpdateAcc :=
  calcAux images services ([], [])

/-! ## Release-services action (src/unnamed/part_001,
`releaseActionReleaseServices`) -/

/-- Go `strconv.Quote(msg)`; escaping of special characters inside `msg` is
elided (no claim depends on it). -/
def goQuote (s : String) : String := "\x22" ++ s ++ "\x22"

/-- Go `strings.Join(elems, sep)`. -/
def strJoin (sep : String) : List String → String
  | [] => ""
  | [s] => s
  | s :: rest => s ++ sep ++ strJoin sep rest

/-- Accumulator of the partition loop in the release-services action body:
results collected so far, synchronous definitions, asynchronous ("self")
definitions, and the "Starting …" audit events. -/
structure PartitionAcc where
  results : List (ServiceID × GoErr)
  defs : List ServiceDefinition
  asyncDefs : List ServiceDefinition
  events : List Event

/-- The per-service body of the partition loop: a service with no definition
records an error; a self service (fluxsvc/fluxd) goes to the asynchronous
batch; any other service goes to the synchronous batch. -/
def partitionStep (pods : List (ServiceID × String)) (cause : String)
    (acc : PartitionAcc) (service : ServiceID) : PartitionAcc :=
  match mapLookup pods service with
  | none =>
    { acc with
      results := mapSet acc.results service (GoErr.msg "no definition found; skipping release") }
  | some defn =>
    match serviceComponents service with
    | (ns, serviceName) =>
      if serviceName = FluxServiceName.toList ∨ serviceName = FluxDaemonName.toList then
        { acc with
          events := acc.events ++ [(ns, serviceName, "Starting " ++ cause ++ ". (no result expected)")],
          asyncDefs := acc.asyncDefs ++ [⟨service, defn⟩] }
      else
        { acc with
          events := acc.events ++ [(ns, serviceName, "Starting " ++ cause)],
          defs := acc.defs ++ [⟨service, defn⟩] }

/-- The error-splat step after the transaction: a structured
`platform.ApplyError` merges per-service; any other error marks every
requested service failed; no error leaves the results alone. -/
def splatResults (transactionErr : Option GoErr) (services : List ServiceID)
    (results : List (ServiceID × GoErr)) : List (ServiceID × GoErr) :=
  match transactionErr with
  | none => results
  | some (GoErr.applyError m) => m.foldl (fun r p => mapSet r p.1 p.2) results
  | some e => services.foldl (fun r s => mapSet r s e) results

/-- The reporting loop: one audit event per requested non-self service,
"done" when no error was recorded for it, otherwise the failure text. -/
def reportEvents (m : String) (results : List (ServiceID × GoErr))
    (services : List ServiceID) : List Event :=
  services.filterMap fun service =>
    match serviceComponents service with
    | (ns, serviceName) =>
      if serviceName = FluxServiceName.toList ∨ serviceName = FluxDaemonName.toList then none
      else
        match mapLookup results service with
        | none => some (ns, serviceName, m ++ ". done")
        | some e => some (ns, serviceName, m ++ ". error: " ++ e.error ++ ". failed")

/-- The executable step of the release-services action. `papply` is the
platform connector transaction (`Instance.PlatformApply`). The detached
asynchronous apply of the self definitions is dispatched fire-and-forget in
the source and has no observable effect on the release context; it is not
modelled. -/
def releaseServicesDo (papply : List ServiceDefinition → Option GoErr)
    (services : List ServiceID) (m : String) (rc : ReleaseContext) :
    ReleaseContext × Except GoErr String :=
  let cause := goQuote m
  let acc := services.foldl (partitionStep rc.podControllers cause) ⟨[], [], [], []⟩
  let transactionErr := papply acc.defs
  let results := splatResults transactionErr services acc.results
  let evs := reportEvents m results services
  ({ rc with events := rc.events ++ acc.events ++ evs },
   match transactionErr with
   | none => Except.ok ""
   | some te => Except.error te)

/-! ## Release action planner (src/unnamed/part_001) -/

/-- Go `type Releaser struct`, with the external capabilities its action
closures reach (git checkout, filesystem, manifest surgery, the platform
connector) carried as explicit fields; no claim depends on their behavior
except the platform connector's. -/
structure Releaser where
  doClone : DoFn
  doUpdatePodController : ServiceID → List ContainerUpdate → DoFn
  doCommitAndPush : String → DoFn
  doFindPodController : ServiceID → DoFn
  platformApply : List ServiceDefinition → Option GoErr

/-- Go `Releaser.releaseActionPrintf`: an informational action whose step is
a closure returning `("", nil)`. -/
def Releaser.releaseActionPrintf (r : Releaser) (m : String) : ReleaseAction :=
  { name := "printf", description := m,
    do_ := some (fun rc => (rc, Except.ok "")), result := "" }

/-- Go `Releaser.releaseActionClone`; the closure body (cloning the config
repo) acts on external state and is carried as `doClone`. -/
def Releaser.releaseActionClone (r : Releaser) : ReleaseAction :=
  { name := "clone", description := "Clone the config repo.",
    do_ := some r.doClone, result := "" }

/-- Go `Releaser.releaseActionFindPodController`; the closure body (locating
and reading the manifest file) acts on external state. -/
def Releaser.releaseActionFindPodController (r : Releaser) (service : ServiceID) :
    ReleaseAction :=
  { name := "find_pod_controller",
    description := "Load the resource definition file for service " ++ String.mk service,
    do_ := some (r.doFindPodController service), result := "" }

/-- Go `Releaser.releaseActionUpdatePodController`; the closure body
(rewriting the manifest file) acts on external state. -/
def Releaser.releaseActionUpdatePodController (r : Releaser) (service : ServiceID)
    (updates : List ContainerUpdate) : ReleaseAction :=
  { name := "update_pod_controller",
    description := "Update " ++ toString updates.length ++
      " images(s) in the resource definition file for " ++ String.mk service ++ ": " ++
      strJoin ", " (updates.map fun u =>
        u.container ++ " (" ++ String.mk u.current ++ " -> " ++ String.mk u.target ++ ")") ++ ".",
    do_ := some (r.doUpdatePodController service updates), result := "" }

/-- Go `Releaser.releaseActionCommitAndPush`; the closure body acts on the
external checkout. -/
def Releaser.releaseActionCommitAndPush (r : Releaser) (m : String) : ReleaseAction :=
  { name := "commit_and_push", description := "Commit and push the config repo.",
    do_ := some (r.doCommitAndPush m), result := "" }

/-- Go `Releaser.releaseActionReleaseServices`. -/
def Releaser.releaseActionReleaseServices (r : Releaser) (services : List ServiceID)
    (m : String) : ReleaseAction :=
  { name := "release_services",
    description := "Release " ++ toString services.length ++ " service(s): " ++
      strJoin ", " (services.map String.mk) ++ ".",
    do_ := some (releaseServicesDo r.platformApply services m), result := "" }

/-- Go `Releaser.releaseImages`: the plan for a release that may update
images. The two selector calls are represented by their results
(`servicesRes`, `imagesRes`); metric observation is elided. -/
def Releaser.releaseImages (r : Releaser) (method m : String)
    (servicesRes : Except GoErr (List Service))
    (imagesRes : Except GoErr ImageMap) : Except GoErr (List ReleaseAction) :=
  let res := [r.releaseActionPrintf m]
  match servicesRes with
  | Except.error e => Except.error (GoErr.msg ("fetching platform services: " ++ e.error))
  | Except.ok services =>
    if services.length = 0 then
      Except.ok (res ++ [r.releaseActionPrintf "No selected services found. Nothing to do."])
    else
      match imagesRes with
      | Except.error e =>
        Except.error (GoErr.msg ("collecting available images to calculate applies: " ++ e.error))
      | Except.ok images =>
        match CalculateUpdates services images with
        | (updateMap, diags) =>
          let res := res ++ diags.map r.releaseActionPrintf
          if updateMap.length ≤ 0 then
            Except.ok (res ++
              [r.releaseActionPrintf
                "All selected services are running the requested images. Nothing to do."])
          else
            let res := res ++ [r.releaseActionClone]
            let res := res ++ updateMap.map fun p => r.releaseActionUpdatePodController p.1 p.2
            let res := res ++ [r.releaseActionCommitAndPush m]
            let servicesToApply := updateMap.map Prod.fst
            Except.ok (res ++ [r.releaseActionReleaseServices servicesToApply m])

/-- Go `Releaser.releaseWithoutUpdate`: re-apply whatever is committed,
without changing any manifest. -/
def Releaser.releaseWithoutUpdate (r : Releaser) (method m : String)
    (servicesRes : Except GoErr (List Service)) : Except GoErr (List ReleaseAction) :=
  match servicesRes with
  | Except.error e => Except.error (GoErr.msg ("fetching platform services: " ++ e.error))
  | Except.ok services =>
    if services.length = 0 then
      Except.ok [r.releaseActionPrintf "No selected services found. Nothing to do."]
    else
      let res := [r.releaseActionPrintf m, r.releaseActionClone]
      let res := res ++ services.map fun s => r.releaseActionFindPodController s.id
      let ids := services.map Service.id
      Except.ok (res ++ [r.releaseActionReleaseServices ids m])

/-! ## Nondegeneracy condition for the ImageID round trip -/

/-- A reference string rebuilds exactly from its parsed components unless it
is degenerate: a three-segment form with an empty registry segment, or a
colon present with an empty tag after it. This is the condition the
round-trip property needs. -/
def roundTripSafe (x : List Char) : Bool :=
  (match goSplitN '/' 3 x with
   | [t0, _, _] => !t0.isEmpty
   | _ => true) &&
  (let s : List Char :=
     match goSplitN '/' 3 x with
     | [_, t1, t2] => t1 ++ '/' :: t2
     | _ => x
   match goSplitN ':' 2 s with
   | [_, t] => !t.isEmpty
   | _ => true)

/-! ## Concrete instances used by witnesses and counterexamples -/

/-- A step that succeeds with an empty result and does not touch the
context. -/
def trivialDo : DoFn := fun rc => (rc, Except.ok "")

/-- A step that fails with the error "boom". -/
def failingDo : DoFn := fun rc => (rc, Except.error (GoErr.msg "boom"))

/-- A releaser whose external capabilities are trivial. -/
def trivialReleaser : Releaser :=
  { doClone := trivialDo,
    doUpdatePodController := fun _ _ => trivialDo,
    doCommitAndPush := fun _ => trivialDo,
    doFindPodController := fun _ => trivialDo,
    platformApply := fun _ => none }

/-- An empty release context. -/
def rc0 : ReleaseContext := ⟨"", [], []⟩

/-- Image descriptions of the specification's end-to-end scenario for
repository `lib/app`. -/
def descLatest : ImageDescription := ⟨"lib/app:latest".toList, some 310⟩

/-- The newest releasable image of the scenario. -/
def descV3 : ImageDescription := ⟨"lib/app:v3".toList, some 300⟩

/-- The older image of the scenario. -/
def descV2 : ImageDescription := ⟨"lib/app:v2".toList, some 200⟩

/-- The scenario image map: newest first, with a moving "latest" on top. -/
def imagesW : ImageMap := [("lib/app".toList, [descLatest, descV3, descV2])]

/-- A service already running the latest releasable image. -/
def svcCurrent : Service := ⟨"default/app".toList, Except.ok [⟨"app", "lib/app:v3".toList⟩]⟩

/-- A service whose container metadata is unavailable. -/
def svcBroken : Service := ⟨"default/bad".toList, Except.error (GoErr.msg "not ready")⟩

/-- A rate-limit state with one host limited to one request per second, a
one-nanosecond backlog allowance, and ten accumulated seconds of schedule. -/
def rlBackedUp : RLState := ⟨1, [("registry.local", ⟨1, 10000000000⟩)]⟩

/-- A rate-limit state with one host limited to one request per second and a
two-second backlog allowance. -/
def rlFresh : RLState := ⟨2 * 1000000000, [("registry.local", ⟨1, 0⟩)]⟩

/-- Pod controller map for the platform-apply witness. -/
def podsW : List (ServiceID × String) :=
  [("default/helloworld".toList, "hw-def"), ("default/sidecar".toList, "sc-def")]

/-- Requested services for the platform-apply witness. -/
def servicesW : List ServiceID := ["default/helloworld".toList, "default/sidecar".toList]

/-- Release context holding the witness pod controllers. -/
def rcW : ReleaseContext := ⟨"/tmp/checkout", podsW, []⟩

/-- A structured per-service error map failing only `default/helloworld`. -/
def errMapW : List (ServiceID × GoErr) := [("default/helloworld".toList, GoErr.msg "image pull failed")]

end Flux
namespace Flux

/-- Splitting at the first occurrence reconstructs the input. -/
theorem splitOnFirst_eq (sep : Char) :
    ∀ {s a b : List Char}, splitOnFirst sep s = some (a, b) → s = a ++ sep :: b := by
  intro s
  induction s with
  | nil => intro a b h; simp [splitOnFirst] at h
  | cons c rest ih =>
    intro a b h
    by_cases hc : c = sep
    · simp [splitOnFirst, hc] at h
      obtain ⟨ha, hb⟩ := h
      subst ha; subst hb; subst hc; rfl
    · simp only [splitOnFirst, if_neg hc] at h
      rcases he : splitOnFirst sep rest with _ | ⟨a', b'⟩
      · rw [he] at h; simp at h
      · rw [he] at h
        simp at h
        obtain ⟨ha, hb⟩ := h
        subst ha; subst hb
        have := ih he
        rw [List.cons_append, ← this]

/-- A two-way split producing two tokens reconstructs the input. -/
theorem goSplitN_two_eq (sep : Char) {s n t : List Char}
    (h : goSplitN sep 2 s = [n, t]) : s = n ++ sep :: t := by
  rcases he : splitOnFirst sep s with _ | ⟨a, b⟩
  · simp [goSplitN, he] at h
  · simp [goSplitN, he] at h
    obtain ⟨ha, hb⟩ := h
    subst ha; subst hb
    exact splitOnFirst_eq sep he

/-- A two-way split yields one token exactly when there is no separator, and
the token is the input. -/
theorem goSplitN_two_one (sep : Char) {s n : List Char}
    (h : goSplitN sep 2 s = [n]) : n = s := by
  rcases he : splitOnFirst sep s with _ | ⟨a, b⟩
  · simp [goSplitN, he] at h; exact h.symm
  · simp [goSplitN, he] at h

/-- A three-way split producing three tokens reconstructs the input. -/
theorem goSplitN_three_eq (sep : Char) {s a b c : List Char}
    (h : goSplitN sep 3 s = [a, b, c]) : s = a ++ sep :: (b ++ sep :: c) := by
  rcases he : splitOnFirst sep s with _ | ⟨a', r⟩
  · simp [goSplitN, he] at h
  · simp [goSplitN, he] at h
    obtain ⟨ha, hrest⟩ := h
    subst ha
    have hr : r = b ++ sep :: c := goSplitN_two_eq sep hrest
    rw [← hr]
    exact splitOnFirst_eq sep he

end Flux
namespace Flux

theorem make_components_roundtrip :
    ∀ x : List Char, x.count '/' ≤ 2 → roundTripSafe x = true →
      makeImageID (components x).1 (components x).2.1 (components x).2.2 = x := by
  intro x hseg hsafe
  rcases e1 : splitOnFirst '/' x with _ | ⟨a, r⟩
  · have h3 : goSplitN '/' 3 x = [x] := by simp [goSplitN, e1]
    rcases e2 : splitOnFirst ':' x with _ | ⟨n0, t⟩
    · have h2 : goSplitN ':' 2 x = [x] := by simp [goSplitN, e2]
      simp [components, h3, h2, makeImageID]
    · have h2 : goSplitN ':' 2 x = [n0, t] := by simp [goSplitN, e2]
      have hx : x = n0 ++ ':' :: t := splitOnFirst_eq ':' e2
      have ht : t ≠ [] := by
        simp [roundTripSafe, h3, h2] at hsafe
        simpa [List.isEmpty_iff] using hsafe
      simp [components, h3, h2, makeImageID, ht]
      exact hx.symm
  · have hx : x = a ++ '/' :: r := splitOnFirst_eq '/' e1
    rcases e1b : splitOnFirst '/' r with _ | ⟨b, c⟩
    · have h3 : goSplitN '/' 3 x = [a, r] := by simp [goSplitN, e1, e1b]
      rcases e2 : splitOnFirst ':' x with _ | ⟨n0, t⟩
      · have h2 : goSplitN ':' 2 x = [x] := by simp [goSplitN, e2]
        simp [components, h3, h2, makeImageID]
      · have h2 : goSplitN ':' 2 x = [n0, t] := by simp [goSplitN, e2]
        have hx2 : x = n0 ++ ':' :: t := splitOnFirst_eq ':' e2
        have ht : t ≠ [] := by
          simp [roundTripSafe, h3, h2] at hsafe
          simpa [List.isEmpty_iff] using hsafe
        simp [components, h3, h2, makeImageID, ht]
        exact hx2.symm
    · have h3 : goSplitN '/' 3 x = [a, b, c] := by simp [goSplitN, e1, e1b]
      have hr : r = b ++ '/' :: c := splitOnFirst_eq '/' e1b
      have ha : a ≠ [] := by
        have := hsafe
        simp [roundTripSafe, h3] at this
        simpa [List.isEmpty_iff] using this.1
      rcases e2 : splitOnFirst ':' (b ++ '/' :: c) with _ | ⟨n0, t⟩
      · have h2 : goSplitN ':' 2 (b ++ '/' :: c) = [b ++ '/' :: c] := by simp [goSplitN, e2]
        simp [components, h3, h2, makeImageID, ha]
        rw [hx, hr]
      · have h2 : goSplitN ':' 2 (b ++ '/' :: c) = [n0, t] := by simp [goSplitN, e2]
        have hs : b ++ '/' :: c = n0 ++ ':' :: t := splitOnFirst_eq ':' e2
        have ht : t ≠ [] := by
          simp [roundTripSafe, h3, h2] at hsafe
          simpa [List.isEmpty_iff] using hsafe.2
        simp [components, h3, h2, makeImageID, ha, ht]
        rw [hx, hr, hs]

end Flux
namespace Flux

/-- C9 (amended): for every reference string with at most three
slash-separated segments that is nondegenerate (three-segment forms have a
nonempty registry segment, and a colon in the name-and-tag part is followed
by a nonempty tag), rebuilding from the parsed components is the identity:
`MakeImageID (Components x) = x`. -/
theorem C9_roundtrip_amended (x : List Char) (hseg : x.count '/' ≤ 2)
    (hsafe : roundTripSafe x = true) :
    makeImageID (components x).1 (components x).2.1 (components x).2.2 = x :=
  make_components_roundtrip x hseg hsafe

/-- Witness: the round trip at a concrete three-segment reference. -/
theorem C9_roundtrip_amended_witness :
    ("quay.io/weaveworks/helloworld:v1".toList.count '/' ≤ 2) ∧
    (roundTripSafe "quay.io/weaveworks/helloworld:v1".toList = true) ∧
    makeImageID (components "quay.io/weaveworks/helloworld:v1".toList).1 (components "quay.io/weaveworks/helloworld:v1".toList).2.1
      (components "quay.io/weaveworks/helloworld:v1".toList).2.2 =
      "quay.io/weaveworks/helloworld:v1".toList :=
  ⟨by decide, by decide,
   C9_roundtrip_amended "quay.io/weaveworks/helloworld:v1".toList (by decide) (by decide)⟩

/-- Counterexample to C9 as stated: the string "hello:" has one
slash-separated segment, yet parsing drops the empty tag and rebuilding
yields "hello". -/
theorem C9_roundtrip_counterexample :
    ("hello:".toList.count '/' ≤ 2) ∧
    makeImageID (components "hello:".toList).1 (components "hello:".toList).2.1
      (components "hello:".toList).2.2 ≠ "hello:".toList := by
  decide

end Flux
namespace Flux

/-- A found image never carries the "latest" tag. -/
theorem latestImageList_not_latest :
    ∀ {l : List ImageDescription} {d : ImageDescription},
      latestImageList l = some d → eqFold (tagOf d.id) "latest".toList = false := by
  intro l
  induction l with
  | nil => intro d h; simp [latestImageList] at h
  | cons i rest ih =>
    intro d h
    by_cases hi : eqFold (tagOf i.id) "latest".toList = true
    · rw [latestImageList, if_pos hi] at h
      exact ih h
    · rw [latestImageList, if_neg hi] at h
      obtain rfl : i = d := by simpa using h
      simpa using hi

/-- A list whose entries are all tagged "latest" yields nothing. -/
theorem latestImageList_all_latest :
    ∀ {l : List ImageDescription},
      (∀ d ∈ l, eqFold (tagOf d.id) "latest".toList = true) → latestImageList l = none := by
  intro l
  induction l with
  | nil => intro _; rfl
  | cons i rest ih =>
    intro h
    rw [latestImageList, if_pos (h i (List.mem_cons_self i rest))]
    exact ih fun d hd => h d (List.mem_cons_of_mem i hd)

/-- The first entry not tagged "latest" is returned. -/
theorem latestImageList_first :
    ∀ (pre : List ImageDescription) (d : ImageDescription) (rest : List ImageDescription),
      (∀ p ∈ pre, eqFold (tagOf p.id) "latest".toList = true) →
      eqFold (tagOf d.id) "latest".toList = false →
      latestImageList (pre ++ d :: rest) = some d := by
  intro pre
  induction pre with
  | nil =>
    intro d rest _ hd
    rw [List.nil_append, latestImageList, if_neg (by simp only [hd]; exact Bool.false_ne_true)]
  | cons p pre ih =>
    intro d rest hpre hd
    rw [List.cons_append, latestImageList, if_pos (hpre p (List.mem_cons_self p pre))]
    exact ih d rest (fun q hq => hpre q (List.mem_cons_of_mem p hq)) hd

/-- C5: `LatestImage` never returns an image whose tag case-insensitively
equals "latest"; it returns none when the repository has no entries or every
entry is tagged "latest" (an empty list satisfies that vacuously); and when a
first non-"latest" entry exists, that entry is returned. -/
theorem C5_latest_image :
    (∀ (m : ImageMap) (repo : List Char) (d : ImageDescription),
        latestImage m repo = some d → eqFold (tagOf d.id) "latest".toList = false) ∧
    (∀ (m : ImageMap) (repo : List Char),
        (∀ d ∈ (mapLookup m repo).getD [], eqFold (tagOf d.id) "latest".toList = true) →
        latestImage m repo = none) ∧
    (∀ (m : ImageMap) (repo : List Char) (pre : List ImageDescription)
        (d : ImageDescription) (rest : List ImageDescription),
        (mapLookup m repo).getD [] = pre ++ d :: rest →
        (∀ p ∈ pre, eqFold (tagOf p.id) "latest".toList = true) →
        eqFold (tagOf d.id) "latest".toList = false →
        latestImage m repo = some d) :=
  ⟨fun _ _ _ h => latestImageList_not_latest h,
   fun _ _ h => latestImageList_all_latest h,
   fun m repo pre d rest hl hpre hd => by
     rw [latestImage, hl]; exact latestImageList_first pre d rest hpre hd⟩

/-- Witness: on the scenario map, the moving "latest" entry is skipped and
`lib/app:v3` is selected. -/
theorem C5_latest_image_witness :
    ((mapLookup imagesW "lib/app".toList).getD [] = [descLatest] ++ descV3 :: [descV2]) ∧
    (∀ p ∈ [descLatest], eqFold (tagOf p.id) "latest".toList = true) ∧
    (eqFold (tagOf descV3.id) "latest".toList = false) ∧
    latestImage imagesW "lib/app".toList = some descV3 :=
  ⟨by decide, by decide, by decide,
   C5_latest_image.2.2 imagesW "lib/app".toList [descLatest] descV3 [descV2]
     (by decide) (by decide) (by decide)⟩

end Flux
namespace Flux

/-- C10: a call rejected with `ErrTooManyPendingRequests` leaves the
per-host limit table untouched: no slot is consumed and no later request is
pushed back. -/
theorem C10_reject_preserves_state (c : RLState) (host : String) (t : Int)
    (h : (rlRoundTrip c host t).1 = RLResult.tooManyPendingRequests) :
    (rlRoundTrip c host t).2 = c := by
  simp only [rlRoundTrip] at h ⊢
  split_ifs at h ⊢ <;> simp_all

/-- Witness: a backed-up host rejects a request and its schedule is
unchanged. -/
theorem C10_reject_preserves_state_witness :
    ((rlRoundTrip rlBackedUp "registry.local" 0).1 = RLResult.tooManyPendingRequests) ∧
    (rlRoundTrip rlBackedUp "registry.local" 0).2 = rlBackedUp :=
  ⟨by decide, C10_reject_preserves_state rlBackedUp "registry.local" 0 (by decide)⟩

end Flux
namespace Flux

/-- Lookup after setting the same key. -/
theorem mapLookup_mapSet_self {α β : Type} [DecidableEq α]
    (m : List (α × β)) (k : α) (v : β) : mapLookup (mapSet m k v) k = some v := by
  induction m with
  | nil => simp [mapSet, mapLookup]
  | cons p rest ih =>
    by_cases hk : p.1 = k
    · simp [mapSet, hk, mapLookup]
    · simpa [mapSet, hk, mapLookup] using ih

/-- Lookup after setting a different key. -/
theorem mapLookup_mapSet_ne {α β : Type} [DecidableEq α]
    (m : List (α × β)) (k k' : α) (v : β) (h : k ≠ k') :
    mapLookup (mapSet m k v) k' = mapLookup m k' := by
  induction m with
  | nil => simp [mapSet, mapLookup, h]
  | cons p rest ih =>
    by_cases hk : p.1 = k
    · simp [mapSet, hk, mapLookup, h]
    · simp [mapSet, hk, mapLookup, ih]

/-- Characterization of a `RoundTrip` call to a host with a positive
configured limit: rejected exactly when the pushed-back schedule would
exceed the backlog, otherwise granted the slot `max n0 t`. -/
theorem rlRoundTrip_limited (c : RLState) (h : String) (t R n0 : Int)
    (hl : mapLookup c.limits h = some ⟨R, n0⟩) (hR : 0 < R) :
    rlRoundTrip c h t =
      if 0 < c.maxBacklog ∧ t + c.maxBacklog < max n0 t + oneSecond / R then
        (RLResult.tooManyPendingRequests, c)
      else
        (RLResult.allow (max n0 t - t),
         { c with limits := mapSet c.limits h ⟨R, max n0 t + oneSecond / R⟩ }) := by
  by_cases hnt : n0 < t
  · simp only [rlRoundTrip, hl]
    simp [hnt, hR, max_eq_right (le_of_lt hnt)]
  · simp only [rlRoundTrip, hl]
    simp [hnt, hR, max_eq_left (not_lt.mp hnt)]

/-- A call for a different host never changes what the table records for
`h`. -/
theorem rlRoundTrip_other (c : RLState) (hst h : String) (t : Int) (hne : hst ≠ h) :
    mapLookup (rlRoundTrip c hst t).2.limits h = mapLookup c.limits h := by
  simp only [rlRoundTrip]
  split_ifs <;> simp [mapLookup_mapSet_ne _ _ _ _ hne]

/-- The division `oneSecond / R` is nonnegative for a positive rate. -/
theorem period_nonneg {R : Int} (hR : 0 < R) : 0 ≤ oneSecond / R :=
  Int.ediv_nonneg (by norm_num [oneSecond]) hR.le

/-- Spacing invariant of a run: every permitted slot for host `h` is at
least the recorded next-request time, and successive permitted slots are at
least `oneSecond / R` apart. -/
theorem runRL_spacing (h : String) (R : Int) (hR : 0 < R) :
    ∀ (reqs : List RLRequest) (c : RLState) (n0 : Int),
      mapLookup c.limits h = some ⟨R, n0⟩ →
      (∀ s ∈ allowedSlots h (runRL c reqs).1, n0 ≤ s) ∧
      List.Pairwise (fun a b => a + oneSecond / R ≤ b) (allowedSlots h (runRL c reqs).1) := by
  intro reqs
  induction reqs with
  | nil => intro c n0 hl; simp [runRL, allowedSlots]
  | cons req rest ih =>
    intro c n0 hl
    by_cases hh : req.host = h
    · have hchar := rlRoundTrip_limited c h req.time R n0 hl hR
      by_cases hrej : 0 < c.maxBacklog ∧ req.time + c.maxBacklog < max n0 req.time + oneSecond / R
      · rw [if_pos hrej] at hchar
        have : runRL c (req :: rest) =
            ((req, RLResult.tooManyPendingRequests) :: (runRL c rest).1, (runRL c rest).2) := by
          simp [runRL, hh, hchar]
        rw [this]
        have htail := ih c n0 hl
        simpa [allowedSlots, hh] using htail
      · rw [if_neg hrej] at hchar
        set c' : RLState :=
          { c with limits := mapSet c.limits h ⟨R, max n0 req.time + oneSecond / R⟩ } with hc'
        have hl' : mapLookup c'.limits h = some ⟨R, max n0 req.time + oneSecond / R⟩ := by
          rw [hc']; exact mapLookup_mapSet_self c.limits h _
        have htail := ih c' (max n0 req.time + oneSecond / R) hl'
        have hrun : runRL c (req :: rest) =
            ((req, RLResult.allow (max n0 req.time - req.time)) :: (runRL c' rest).1,
             (runRL c' rest).2) := by
          simp [runRL, hh, hchar]
        rw [hrun]
        have hslot : req.time + (max n0 req.time - req.time) = max n0 req.time := by omega
        have hslots : allowedSlots h ((req, RLResult.allow (max n0 req.time - req.time)) ::
            (runRL c' rest).1) = max n0 req.time :: allowedSlots h (runRL c' rest).1 := by
          simp [allowedSlots, hh, hslot]
        rw [hslots]
        have hper := period_nonneg hR
        refine ⟨?_, ?_⟩
        · intro s hs
          rcases List.mem_cons.mp hs with rfl | hs'
          · exact le_max_left n0 req.time
          · have := htail.1 s hs'
            have : max n0 req.time + oneSecond / R ≤ s := this
            have hn0 : n0 ≤ max n0 req.time := le_max_left _ _
            omega
        · refine List.Pairwise.cons ?_ htail.2
          intro b hb
          exact htail.1 b hb
    · have hl2 : mapLookup (rlRoundTrip c req.host req.time).2.limits h = some ⟨R, n0⟩ := by
        rw [rlRoundTrip_other c req.host h req.time hh]; exact hl
      have htail := ih (rlRoundTrip c req.host req.time).2 n0 hl2
      have hrun : runRL c (req :: rest) =
          ((req, (rlRoundTrip c req.host req.time).1) ::
            (runRL (rlRoundTrip c req.host req.time).2 rest).1,
           (runRL (rlRoundTrip c req.host req.time).2 rest).2) := by
        simp [runRL]
      rw [hrun]
      simpa [allowedSlots, hh] using htail

end Flux
namespace Flux

/-- C7: for a host with a configured positive limit of R requests/second,
the granted time slots of any two permitted requests in a run are at least
`oneSecond / R` nanoseconds apart (the duration the source computes for
`1s / R`); and whenever the projected wait of a call exceeds the configured
positive maximum backlog, the call is rejected with the named overflow error
`tooManyPendingRequests` instead of being granted a sleep. -/
theorem C7_rate_limit_spacing_overflow :
    (∀ (h : String) (R n0 : Int) (c : RLState) (reqs : List RLRequest),
        0 < R → mapLookup c.limits h = some ⟨R, n0⟩ →
        List.Pairwise (fun a b => a + oneSecond / R ≤ b)
          (allowedSlots h (runRL c reqs).1)) ∧
    (∀ (c : RLState) (h : String) (t R n0 : Int),
        mapLookup c.limits h = some ⟨R, n0⟩ → 0 < R → 0 < c.maxBacklog →
        c.maxBacklog < max n0 t - t →
        (rlRoundTrip c h t).1 = RLResult.tooManyPendingRequests) := by
  constructor
  · intro h R n0 c reqs hR hl
    exact (runRL_spacing h R hR reqs c n0 hl).2
  · intro c h t R n0 hl hR hb hw
    have hchar := rlRoundTrip_limited c h t R n0 hl hR
    have hper := period_nonneg hR
    rw [hchar, if_pos ⟨hb, by omega⟩]

/-- Witness: two immediate requests to a 1 req/s host get slots a second
apart, and a backed-up host rejects with the overflow error. -/
theorem C7_rate_limit_spacing_overflow_witness :
    ((0 : Int) < 1) ∧ (mapLookup rlFresh.limits "registry.local" = some ⟨1, 0⟩) ∧
    List.Pairwise (fun a b => a + oneSecond / 1 ≤ b)
      (allowedSlots "registry.local"
        (runRL rlFresh [⟨"registry.local", 0⟩, ⟨"registry.local", 0⟩]).1) ∧
    (mapLookup rlBackedUp.limits "registry.local" = some ⟨1, 10000000000⟩) ∧
    ((0 : Int) < rlBackedUp.maxBacklog) ∧
    (rlBackedUp.maxBacklog < max (10000000000 : Int) 0 - 0) ∧
    (rlRoundTrip rlBackedUp "registry.local" 0).1 = RLResult.tooManyPendingRequests :=
  ⟨by decide, by decide,
   C7_rate_limit_spacing_overflow.1 "registry.local" 1 0 rlFresh
     [⟨"registry.local", 0⟩, ⟨"registry.local", 0⟩] (by decide) (by decide),
   by decide, by decide, by decide,
   C7_rate_limit_spacing_overflow.2 rlBackedUp "registry.local" 0 1 10000000000
     (by decide) (by decide) (by decide) (by decide)⟩

end Flux
namespace Flux

/-- C4: in "plan only" mode no action's closure is ever invoked: execution
returns every action unchanged (in particular every `Result` field), leaves
the release context untouched, reports exactly the descriptions, and raises
no error — whatever the plan contains. -/
theorem C4_plan_mode_no_op (actions : List ReleaseAction) (rc : ReleaseContext) :
    execute ReleaseKindPlan rc actions =
      (actions, rc, actions.map ReleaseAction.description, none) := by
  induction actions with
  | nil => simp [execute]
  | cons a rest ih =>
    rcases hdo : a.do_ with _ | f
    · simp [execute, hdo, ih]
    · simp [execute, hdo, ih, (by decide : ReleaseKindPlan ≠ ReleaseKindExecute)]

end Flux
namespace Flux

/-- C3: in "execute" mode, when the prefix `pre` runs without error and the
next action's closure fails, the failure text is recorded into that action's
result, the error is surfaced, and the actions after it are returned exactly
as given — never attempted, their results untouched. -/
theorem C3_execute_fail_fast :
    ∀ (pre : List ReleaseAction) {a : ReleaseAction} (post : List ReleaseAction)
      {rc : ReleaseContext} {pre' : List ReleaseAction} {rc1 : ReleaseContext}
      {log1 : List String} {f : DoFn} {rc2 : ReleaseContext} {e : GoErr},
      execute ReleaseKindExecute rc pre = (pre', rc1, log1, none) →
      a.do_ = some f →
      f rc1 = (rc2, Except.error e) →
      execute ReleaseKindExecute rc (pre ++ a :: post) =
        (pre' ++ ({ a with result := "Failed: " ++ e.error } :: post), rc2,
         log1 ++ [a.description, e.error], some e) := by
  intro pre
  induction pre with
  | nil =>
    intro a post rc pre' rc1 log1 f rc2 e h hdo hf
    simp [execute] at h
    obtain ⟨h1, h2, h3⟩ := h
    subst h1; subst h2; subst h3
    simp [execute, hdo, hf, (by decide : ReleaseKindExecute = ReleaseKindExecute)]
  | cons b pre ih =>
    intro a post rc pre' rc1 log1 f rc2 e h hdo hf
    rcases hdo_b : b.do_ with _ | g
    · rcases hrec : execute ReleaseKindExecute rc pre with ⟨as, rc1', log', err⟩
      simp [execute, hdo_b, hrec] at h
      obtain ⟨h1, h2, h3, h4⟩ := h
      subst h1; subst h2; subst h3; subst h4
      have hih := ih post hrec hdo hf
      simp [execute, hdo_b, hih]
    · rcases hg : g rc with ⟨rcg, res⟩
      rcases res with eg | resg
      · simp [execute, hdo_b, hg] at h
      · rcases hrec : execute ReleaseKindExecute rcg pre with ⟨as, rc1', log', err⟩
        simp [execute, hdo_b, hg, hrec] at h
        obtain ⟨h1, h2, h3, h4⟩ := h
        subst h1; subst h2; subst h3; subst h4
        have hih := ih post hrec hdo hf
        simp [execute, hdo_b, hg, hih]

end Flux
namespace Flux

/-- Witness: a failing clone step aborts the run, records the failure, and
leaves the following action untouched. -/
theorem C3_execute_fail_fast_witness :
    (execute ReleaseKindExecute rc0 [] = ([], rc0, [], none)) ∧
    ((⟨"clone", "Clone the config repo.", some failingDo, ""⟩ : ReleaseAction).do_ =
      some failingDo) ∧
    (failingDo rc0 = (rc0, Except.error (GoErr.msg "boom"))) ∧
    execute ReleaseKindExecute rc0
        ([] ++ (⟨"clone", "Clone the config repo.", some failingDo, ""⟩ : ReleaseAction) ::
          [⟨"commit_and_push", "Commit and push the config repo.", some trivialDo, ""⟩]) =
      ([] ++ ({ (⟨"clone", "Clone the config repo.", some failingDo, ""⟩ : ReleaseAction) with
                result := "Failed: " ++ (GoErr.msg "boom").error } ::
            [⟨"commit_and_push", "Commit and push the config repo.", some trivialDo, ""⟩]),
       rc0, [] ++ [(⟨"clone", "Clone the config repo.", some failingDo, ""⟩ : ReleaseAction).description,
         (GoErr.msg "boom").error], some (GoErr.msg "boom")) :=
  ⟨rfl, rfl, rfl,
   C3_execute_fail_fast []
     [⟨"commit_and_push", "Commit and push the config repo.", some trivialDo, ""⟩]
     rfl rfl rfl⟩

end Flux
namespace Flux

/-- Counterexample to C1 as stated: with zero matching services,
`releaseImages` returns a plan of two informational actions (the descriptive
header plus the nothing-to-do notice), not exactly one. -/
theorem C1_zero_services_counterexample :
    ((trivialReleaser.releaseImages "release_all_to_latest" "Release all to latest"
        (Except.ok []) (Except.ok [])).map (List.map ReleaseAction.name) =
      Except.ok ["printf", "printf"]) ∧
    ["printf", "printf"].length ≠ 1 :=
  ⟨rfl, by decide⟩

/-- C1 (amended): with zero matching services, `releaseImages` yields
exactly two informational actions (its header and the nothing-to-do notice)
and `releaseWithoutUpdate` exactly one; neither plan contains any clone,
manifest-update, commit, or release action. -/
theorem C1_zero_services_amended (r : Releaser) (method m : String)
    (imagesRes : Except GoErr ImageMap) :
    (r.releaseImages method m (Except.ok []) imagesRes =
      Except.ok [r.releaseActionPrintf m,
        r.releaseActionPrintf "No selected services found. Nothing to do."]) ∧
    (r.releaseWithoutUpdate method m (Except.ok []) =
      Except.ok [r.releaseActionPrintf "No selected services found. Nothing to do."]) ∧
    ((r.releaseImages method m (Except.ok []) imagesRes).map (List.map ReleaseAction.name) =
      Except.ok ["printf", "printf"]) ∧
    ((r.releaseWithoutUpdate method m (Except.ok [])).map (List.map ReleaseAction.name) =
      Except.ok ["printf"]) :=
  ⟨rfl, rfl, rfl, rfl⟩

/-- Counterexample to C2 as stated: the executable step of a planner printf
action is present, not absent. -/
theorem C2_printf_do_present_counterexample :
    ((trivialReleaser.releaseActionPrintf "hello").do_).isSome = true := rfl

/-- C2 (amended): every printf (informational) action carries a trivial
closure returning an empty result and no error, rather than no closure at
all; executing such an action is a no-op: the context is untouched, the
recorded result is empty, only the description is reported, and execution
continues. -/
theorem C2_printf_trivial_closure_amended (r : Releaser) (m : String) (rc : ReleaseContext) :
    ((r.releaseActionPrintf m).do_ = some (fun rc => (rc, Except.ok ""))) ∧
    (∀ rest : List ReleaseAction,
      execute ReleaseKindExecute rc (r.releaseActionPrintf m :: rest) =
        (r.releaseActionPrintf m :: (execute ReleaseKindExecute rc rest).1,
         (execute ReleaseKindExecute rc rest).2.1,
         m :: (execute ReleaseKindExecute rc rest).2.2.1,
         (execute ReleaseKindExecute rc rest).2.2.2)) := by
  refine ⟨rfl, ?_⟩
  intro rest
  rcases hrec : execute ReleaseKindExecute rc rest with ⟨as, rc1, log, err⟩
  simp [execute, Releaser.releaseActionPrintf, hrec]

end Flux
namespace Flux

/-- C6: a container already running the computed latest releasable image of
its repository contributes no ContainerUpdate (only a diagnostic), and a
service whose container metadata is unavailable is skipped with a diagnostic
while the calculation proceeds over the remaining services. -/
theorem C6_calculate_updates :
    (∀ (images : ImageMap) (sid : ServiceID) (acc : UpdateAcc) (c : Container)
        (d : ImageDescription),
        latestImage images (repository (parseImageID c.image)) = some d →
        parseImageID c.image = d.id →
        stepContainer images sid acc c = (acc.1, acc.2 ++ [alreadyLatestMsg sid c.image])) ∧
    (∀ (images : ImageMap) (pre : List Service) (s : Service) (post : List Service)
        (e : GoErr),
        s.containersOrError = Except.error e →
        CalculateUpdates (pre ++ s :: post) images =
          calcAux images post
            ((calcAux images pre ([], [])).1,
             (calcAux images pre ([], [])).2 ++ [noContainersMsg s.id e])) := by
  constructor
  · intro images sid acc c d h1 h2
    have h1' : latestImage images (repository d.id) = some d := by
      rw [← h2]; exact h1
    simp [stepContainer, h1', h2]
    rw [show c.image = d.id from h2]
  · intro images pre s post e he
    show calcAux images (pre ++ s :: post) ([], []) = _
    rw [calcAux, List.foldl_append, List.foldl_cons]
    have hstep : stepService images (List.foldl (stepService images) ([], []) pre) s =
        ((List.foldl (stepService images) ([], []) pre).1,
         (List.foldl (stepService images) ([], []) pre).2 ++ [noContainersMsg s.id e]) := by
      simp [stepService, he]
    rw [hstep]
    rfl

/-- Witness: on the scenario map, a container already on `lib/app:v3` only
adds the skip diagnostic, and a broken service is skipped while its sibling
is still processed. -/
theorem C6_calculate_updates_witness :
    (latestImage imagesW (repository (parseImageID "lib/app:v3".toList)) = some descV3) ∧
    (parseImageID "lib/app:v3".toList = descV3.id) ∧
    (stepContainer imagesW "default/app".toList ([], []) ⟨"app", "lib/app:v3".toList⟩ =
      (([] : List (ServiceID × List ContainerUpdate)),
       [] ++ [alreadyLatestMsg "default/app".toList "lib/app:v3".toList])) ∧
    (svcBroken.containersOrError = Except.error (GoErr.msg "not ready")) ∧
    (CalculateUpdates ([] ++ svcBroken :: [svcCurrent]) imagesW =
      calcAux imagesW [svcCurrent]
        ((calcAux imagesW [] ([], [])).1,
         (calcAux imagesW [] ([], [])).2 ++
           [noContainersMsg svcBroken.id (GoErr.msg "not ready")])) :=
  ⟨by decide, by decide,
   C6_calculate_updates.1 imagesW "default/app".toList ([], [])
     ⟨"app", "lib/app:v3".toList⟩ descV3 (by decide) (by decide),
   rfl,
   C6_calculate_updates.2 imagesW [] svcBroken [svcCurrent] (GoErr.msg "not ready") rfl⟩

end Flux
namespace Flux

/-- A key that never occurs maps to nothing. -/
theorem mapLookup_eq_none_of_not_mem {β : Type} :
    ∀ (l : List (ServiceID × β)) (s : ServiceID), s ∉ l.map Prod.fst → mapLookup l s = none := by
  intro l
  induction l with
  | nil => intro s _; rfl
  | cons p rest ih =>
    intro s hs
    have h1 : ¬ p.1 = s := fun h =>
      hs (by rw [List.map_cons]; exact List.mem_cons.mpr (Or.inl h.symm))
    have h2 : s ∉ rest.map Prod.fst := fun h =>
      hs (by rw [List.map_cons]; exact List.mem_cons_of_mem p.1 h)
    calc mapLookup (p :: rest) s = mapLookup rest s := by
          rcases p with ⟨k, v⟩; simp only [mapLookup]; rw [if_neg h1]
      _ = none := ih s h2

/-- Splatting entries whose keys avoid `s` leaves the lookup of `s` alone. -/
theorem lookup_foldl_mapSet_not_mem {β : Type} :
    ∀ (l : List (ServiceID × β)) (init : List (ServiceID × β)) (s : ServiceID),
      s ∉ l.map Prod.fst →
      mapLookup (l.foldl (fun r p => mapSet r p.1 p.2) init) s = mapLookup init s := by
  intro l
  induction l with
  | nil => intro init s _; rfl
  | cons p rest ih =>
    intro init s hs
    have h1 : ¬ p.1 = s := fun h =>
      hs (by rw [List.map_cons]; exact List.mem_cons.mpr (Or.inl h.symm))
    have h2 : s ∉ rest.map Prod.fst := fun h =>
      hs (by rw [List.map_cons]; exact List.mem_cons_of_mem p.1 h)
    calc mapLookup ((p :: rest).foldl (fun r q => mapSet r q.1 q.2) init) s
        = mapLookup (rest.foldl (fun r q => mapSet r q.1 q.2) (mapSet init p.1 p.2)) s := by
          simp
      _ = mapLookup (mapSet init p.1 p.2) s := ih (mapSet init p.1 p.2) s h2
      _ = mapLookup init s := mapLookup_mapSet_ne init p.1 s p.2 h1

/-- Splatting a duplicate-free error map into any base map makes the lookup
of a key named in it agree with the error map itself. -/
theorem lookup_foldl_mapSet_mem {β : Type} :
    ∀ (l : List (ServiceID × β)) (init : List (ServiceID × β)) (s : ServiceID),
      (l.map Prod.fst).Nodup → s ∈ l.map Prod.fst →
      mapLookup (l.foldl (fun r p => mapSet r p.1 p.2) init) s = mapLookup l s := by
  intro l
  induction l with
  | nil => intro init s _ hs; simp at hs
  | cons p rest ih =>
    intro init s hnd hs
    rw [List.map_cons] at hnd hs
    obtain ⟨hp, hrestnd⟩ := List.nodup_cons.mp hnd
    have hfold : mapLookup ((p :: rest).foldl (fun r q => mapSet r q.1 q.2) init) s
        = mapLookup (rest.foldl (fun r q => mapSet r q.1 q.2) (mapSet init p.1 p.2)) s := by
      simp
    rcases List.mem_cons.mp hs with heq | hmem
    · have hnm : s ∉ rest.map Prod.fst := heq ▸ hp
      calc mapLookup ((p :: rest).foldl (fun r q => mapSet r q.1 q.2) init) s
          = mapLookup (mapSet init p.1 p.2) s :=
            hfold.trans (lookup_foldl_mapSet_not_mem rest (mapSet init p.1 p.2) s hnm)
        _ = some p.2 := by rw [heq]; exact mapLookup_mapSet_self init p.1 p.2
        _ = mapLookup (p :: rest) s := by
            rcases p with ⟨k, v⟩
            simp only [mapLookup]
            rw [if_pos heq.symm]
    · have hne : ¬ p.1 = s := fun h => hp (h ▸ hmem)
      calc mapLookup ((p :: rest).foldl (fun r q => mapSet r q.1 q.2) init) s
          = mapLookup rest s := hfold.trans (ih (mapSet init p.1 p.2) s hrestnd hmem)
        _ = mapLookup (p :: rest) s := by
            rcases p with ⟨k, v⟩
            simp only [mapLookup]
            rw [if_neg hne]

/-- Marking every service failed with the same error leaves other keys
alone. -/
theorem lookup_foldl_setconst_not_mem (e : GoErr) :
    ∀ (services : List ServiceID) (init : List (ServiceID × GoErr)) (s : ServiceID),
      s ∉ services →
      mapLookup (services.foldl (fun r q => mapSet r q e) init) s = mapLookup init s := by
  intro services
  induction services with
  | nil => intro init s _; rfl
  | cons a rest ih =>
    intro init s hs
    have h1 : ¬ a = s := fun h => hs (by simp [h])
    have h2 : s ∉ rest := fun h => hs (List.mem_cons_of_mem a h)
    calc mapLookup ((a :: rest).foldl (fun r q => mapSet r q e) init) s
        = mapLookup (rest.foldl (fun r q => mapSet r q e) (mapSet init a e)) s := by simp
      _ = mapLookup (mapSet init a e) s := ih (mapSet init a e) s h2
      _ = mapLookup init s := mapLookup_mapSet_ne init a s e h1

/-- Marking every service failed with the same error records it for each of
them. -/
theorem lookup_foldl_setconst_mem (e : GoErr) :
    ∀ (services : List ServiceID) (init : List (ServiceID × GoErr)) (s : ServiceID),
      s ∈ services →
      mapLookup (services.foldl (fun r q => mapSet r q e) init) s = some e := by
  intro services
  induction services with
  | nil => intro init s hs; simp at hs
  | cons a rest ih =>
    intro init s hs
    have hfold : mapLookup ((a :: rest).foldl (fun r q => mapSet r q e) init) s
        = mapLookup (rest.foldl (fun r q => mapSet r q e) (mapSet init a e)) s := by simp
    by_cases hmem : s ∈ rest
    · exact hfold.trans (ih (mapSet init a e) s hmem)
    · rcases List.mem_cons.mp hs with heq | h
      · rw [hfold, lookup_foldl_setconst_not_mem e rest (mapSet init a e) s hmem, heq]
        exact mapLookup_mapSet_self init a e
      · exact absurd h hmem

end Flux

namespace Flux

/-- When every requested service has a definition, the partition loop
records no "no definition found" error. -/
theorem partition_results_of_defined (pods : List (ServiceID × String)) (cause : String) :
    ∀ (services : List ServiceID) (acc : PartitionAcc),
      (∀ s ∈ services, (mapLookup pods s).isSome) →
      (services.foldl (partitionStep pods cause) acc).results = acc.results := by
  intro services
  induction services with
  | nil => intro acc _; rfl
  | cons a rest ih =>
    intro acc hdef
    have ha := hdef a (List.mem_cons_self a rest)
    rcases hl : mapLookup pods a with _ | d
    · rw [hl] at ha; simp at ha
    · have hstep : (partitionStep pods cause acc a).results = acc.results := by
        rcases hsc : serviceComponents a with ⟨ns, name⟩
        simp only [partitionStep, hl, hsc]
        split_ifs <;> rfl
      calc ((a :: rest).foldl (partitionStep pods cause) acc).results
          = (rest.foldl (partitionStep pods cause) (partitionStep pods cause acc a)).results := by
            simp
        _ = (partitionStep pods cause acc a).results :=
            ih (partitionStep pods cause acc a) fun s hs => hdef s (List.mem_cons_of_mem a hs)
        _ = acc.results := hstep

/-- The events of the release-services step: the context's prior events,
then the "Starting" events of the partition loop, then the per-service
report events. -/
theorem releaseServicesDo_events (papply : List ServiceDefinition → Option GoErr)
    (services : List ServiceID) (m : String) (rc : ReleaseContext) :
    (releaseServicesDo papply services m rc).1.events =
      rc.events ++
        (services.foldl (partitionStep rc.podControllers (goQuote m)) ⟨[], [], [], []⟩).events ++
        reportEvents m
          (splatResults
            (papply (services.foldl (partitionStep rc.podControllers (goQuote m))
              ⟨[], [], [], []⟩).defs)
            services
            (services.foldl (partitionStep rc.podControllers (goQuote m)) ⟨[], [], [], []⟩).results)
          services := rfl

/-- A requested non-self service with no recorded error is reported done. -/
theorem reportEvents_done (m : String) (results : List (ServiceID × GoErr))
    (services : List ServiceID) (s : ServiceID) (hs : s ∈ services)
    (hself : ¬((serviceComponents s).2 = FluxServiceName.toList ∨
      (serviceComponents s).2 = FluxDaemonName.toList))
    (hn : mapLookup results s = none) :
    ((serviceComponents s).1, (serviceComponents s).2, m ++ ". done") ∈
      reportEvents m results services := by
  apply List.mem_filterMap.mpr
  refine ⟨s, hs, ?_⟩
  rcases hsc : serviceComponents s with ⟨ns, name⟩
  rw [hsc] at hself
  simp only [hsc, hn]
  rw [if_neg hself]

/-- A requested non-self service with a recorded error is reported failed. -/
theorem reportEvents_failed (m : String) (results : List (ServiceID × GoErr))
    (services : List ServiceID) (s : ServiceID) (e : GoErr) (hs : s ∈ services)
    (hself : ¬((serviceComponents s).2 = FluxServiceName.toList ∨
      (serviceComponents s).2 = FluxDaemonName.toList))
    (he : mapLookup results s = some e) :
    ((serviceComponents s).1, (serviceComponents s).2,
      m ++ ". error: " ++ e.error ++ ". failed") ∈ reportEvents m results services := by
  apply List.mem_filterMap.mpr
  refine ⟨s, hs, ?_⟩
  rcases hsc : serviceComponents s with ⟨ns, name⟩
  rw [hsc] at hself
  simp only [hsc, he]
  rw [if_neg hself]

end Flux
namespace Flux

/-- C8: in a batched platform apply where every requested service has a
definition, a structured per-service error map makes exactly the services it
names record errors — non-self siblings not named are still reported with a
"done" event, the named ones with a failure event; an undifferentiated
connector error records the failure for every requested service and reports
every non-self one as failed. -/
theorem C8_partial_apply_errors (services : List ServiceID) (m : String)
    (rc : ReleaseContext) (errMap : List (ServiceID × GoErr)) (e0 : String)
    (hdef : ∀ s ∈ services, (mapLookup rc.podControllers s).isSome)
    (hnd : (errMap.map Prod.fst).Nodup) :
    ((∀ s : ServiceID,
        mapLookup (splatResults (some (GoErr.applyError errMap)) services
          ((services.foldl (partitionStep rc.podControllers (goQuote m))
            ⟨[], [], [], []⟩).results)) s = mapLookup errMap s) ∧
     (∀ s ∈ services,
        ¬((serviceComponents s).2 = FluxServiceName.toList ∨
          (serviceComponents s).2 = FluxDaemonName.toList) →
        mapLookup errMap s = none →
        ((serviceComponents s).1, (serviceComponents s).2, m ++ ". done") ∈
          (releaseServicesDo (fun _ => some (GoErr.applyError errMap)) services m rc).1.events) ∧
     (∀ s ∈ services, ∀ e : GoErr,
        ¬((serviceComponents s).2 = FluxServiceName.toList ∨
          (serviceComponents s).2 = FluxDaemonName.toList) →
        mapLookup errMap s = some e →
        ((serviceComponents s).1, (serviceComponents s).2,
          m ++ ". error: " ++ e.error ++ ". failed") ∈
          (releaseServicesDo (fun _ => some (GoErr.applyError errMap)) services m rc).1.events)) ∧
    ((∀ s ∈ services,
        mapLookup (splatResults (some (GoErr.msg e0)) services
          ((services.foldl (partitionStep rc.podControllers (goQuote m))
            ⟨[], [], [], []⟩).results)) s = some (GoErr.msg e0)) ∧
     (∀ s ∈ services,
        ¬((serviceComponents s).2 = FluxServiceName.toList ∨
          (serviceComponents s).2 = FluxDaemonName.toList) →
        ((serviceComponents s).1, (serviceComponents s).2,
          m ++ ". error: " ++ (GoErr.msg e0).error ++ ". failed") ∈
          (releaseServicesDo (fun _ => some (GoErr.msg e0)) services m rc).1.events)) := by
  have hres0 : (services.foldl (partitionStep rc.podControllers (goQuote m))
      ⟨[], [], [], []⟩).results = ([] : List (ServiceID × GoErr)) :=
    partition_results_of_defined rc.podControllers (goQuote m) services ⟨[], [], [], []⟩ hdef
  have hstruct : ∀ s : ServiceID,
      mapLookup (splatResults (some (GoErr.applyError errMap)) services
        ((services.foldl (partitionStep rc.podControllers (goQuote m))
          ⟨[], [], [], []⟩).results)) s = mapLookup errMap s := by
    intro s
    show mapLookup (errMap.foldl (fun r p => mapSet r p.1 p.2)
      ((services.foldl (partitionStep rc.podControllers (goQuote m))
        ⟨[], [], [], []⟩).results)) s = mapLookup errMap s
    rw [hres0]
    by_cases hm : s ∈ errMap.map Prod.fst
    · exact lookup_foldl_mapSet_mem errMap [] s hnd hm
    · rw [lookup_foldl_mapSet_not_mem errMap [] s hm]
      exact (mapLookup_eq_none_of_not_mem errMap s hm).symm
  have hundiff : ∀ s ∈ services,
      mapLookup (splatResults (some (GoErr.msg e0)) services
        ((services.foldl (partitionStep rc.podControllers (goQuote m))
          ⟨[], [], [], []⟩).results)) s = some (GoErr.msg e0) := by
    intro s hs
    exact lookup_foldl_setconst_mem (GoErr.msg e0) services _ s hs
  refine ⟨⟨hstruct, ?_, ?_⟩, hundiff, ?_⟩
  · intro s hs hself hnone
    rw [releaseServicesDo_events]
    exact List.mem_append.mpr (Or.inr
      (reportEvents_done m _ services s hs hself ((hstruct s).trans hnone)))
  · intro s hs e hself he
    rw [releaseServicesDo_events]
    exact List.mem_append.mpr (Or.inr
      (reportEvents_failed m _ services s e hs hself ((hstruct s).trans he)))
  · intro s hs hself
    rw [releaseServicesDo_events]
    exact List.mem_append.mpr (Or.inr
      (reportEvents_failed m _ services s (GoErr.msg e0) hs hself (hundiff s hs)))

end Flux
namespace Flux

/-- Witness: with definitions for both services and an error map naming only
`default/helloworld`, the sibling `default/sidecar` is reported done and the
named service failed; under an undifferentiated error both record it. -/
theorem C8_partial_apply_errors_witness :
    (∀ s ∈ servicesW, (mapLookup rcW.podControllers s).isSome) ∧
    ((errMapW.map Prod.fst).Nodup) ∧
    (((serviceComponents "default/sidecar".toList).1,
      (serviceComponents "default/sidecar".toList).2, "deploy" ++ ". done") ∈
      (releaseServicesDo (fun _ => some (GoErr.applyError errMapW)) servicesW
        "deploy" rcW).1.events) ∧
    (((serviceComponents "default/helloworld".toList).1,
      (serviceComponents "default/helloworld".toList).2,
      "deploy" ++ ". error: " ++ (GoErr.msg "image pull failed").error ++ ". failed") ∈
      (releaseServicesDo (fun _ => some (GoErr.applyError errMapW)) servicesW
        "deploy" rcW).1.events) ∧
    (mapLookup (splatResults (some (GoErr.msg "connector down")) servicesW
        ((servicesW.foldl (partitionStep rcW.podControllers (goQuote "deploy"))
          ⟨[], [], [], []⟩).results)) "default/helloworld".toList =
      some (GoErr.msg "connector down")) :=
  ⟨by decide, by decide,
   (C8_partial_apply_errors servicesW "deploy" rcW errMapW "connector down"
      (by decide) (by decide)).1.2.1 "default/sidecar".toList (by decide) (by decide) rfl,
   (C8_partial_apply_errors servicesW "deploy" rcW errMapW "connector down"
      (by decide) (by decide)).1.2.2 "default/helloworld".toList (by decide)
      (GoErr.msg "image pull failed") (by decide) rfl,
   (C8_partial_apply_errors servicesW "deploy" rcW errMapW "connector down"
      (by decide) (by decide)).2.1 "default/helloworld".toList (by decide)⟩

end Flux
